import Mathlib

/-!
Verification development for the `notify` repository (DingTalk webhook robot,
`dding_talk.go`). The Go program is shallowly embedded: byte strings become
`List Nat` (each element a byte value), the robot's mutable fields become an
explicit state record threaded through the operations, and the effects of a
send (JSON marshalling, the HTTP POST, reading the body, parsing the response)
are driven by an explicit `World` describing the outcome of each effect.
The signature pipeline (HMAC-SHA256 then standard base64) is implemented
executably, following FIPS 180-4 and RFC 2104, exactly as the Go standard
library routines called by `Robot.buildQuery` do.
-/

namespace Notify

/-! ## SHA-256 (FIPS 180-4), executable, bytes as `Nat` -/

/-- Truncate to a 32-bit word, making overflow explicit. -/
def w32 (n : Nat) : Nat := n % 4294967296

/-- Right rotation of a 32-bit word. -/
def rotr (n x : Nat) : Nat := w32 (Nat.lor (x >>> n) (x <<< (32 - n)))

/-- Bitwise choice function of SHA-256. -/
def ch (x y z : Nat) : Nat := Nat.xor (Nat.land x y) (Nat.land (Nat.xor x 4294967295) z)

/-- Bitwise majority function of SHA-256. -/
def maj (x y z : Nat) : Nat := Nat.xor (Nat.xor (Nat.land x y) (Nat.land x z)) (Nat.land y z)

/-- Big sigma-0 of SHA-256. -/
def bigS0 (x : Nat) : Nat := Nat.xor (Nat.xor (rotr 2 x) (rotr 13 x)) (rotr 22 x)

/-- Big sigma-1 of SHA-256. -/
def bigS1 (x : Nat) : Nat := Nat.xor (Nat.xor (rotr 6 x) (rotr 11 x)) (rotr 25 x)

/-- Small sigma-0 of SHA-256 (message schedule). -/
def smallS0 (x : Nat) : Nat := Nat.xor (Nat.xor (rotr 7 x) (rotr 18 x)) (x >>> 3)

/-- Small sigma-1 of SHA-256 (message schedule). -/
def smallS1 (x : Nat) : Nat := Nat.xor (Nat.xor (rotr 17 x) (rotr 19 x)) (x >>> 10)

/-- The 64 SHA-256 round constants. -/
def K : List Nat :=
  [1116352408, 1899447441, 3049323471, 3921009573, 961987163, 1508970993,
   2453635748, 2870763221, 3624381080, 310598401, 607225278, 1426881987,
   1925078388, 2162078206, 2614888103, 3248222580, 3835390401, 4022224774,
   264347078, 604807628, 770255983, 1249150122, 1555081692, 1996064986,
   2554220882, 2821834349, 2952996808, 3210313671, 3336571891, 3584528711,
   113926993, 338241895, 666307205, 773529912, 1294757372, 1396182291,
   1695183700, 1986661051, 2177026350, 2456956037, 2730485921, 2820302411,
   3259730800, 3345764771, 3516065817, 3600352804, 4094571909, 275423344,
   430227734, 506948616, 659060556, 883997877, 958139571, 1322822218,
   1537002063, 1747873779, 1955562222, 2024104815, 2227730452, 2361852424,
   2428436474, 2756734187, 3204031479, 3329325298]

/-- Working state of the SHA-256 compression function: eight 32-bit words. -/
structure Hash8 where
  a : Nat
  b : Nat
  c : Nat
  d : Nat
  e : Nat
  f : Nat
  g : Nat
  h : Nat
deriving DecidableEq, Repr

/-- Initial SHA-256 hash value. -/
def initH : Hash8 :=
  ⟨1779033703, 3144134277, 1013904242, 2773480762, 1359893119, 2600822924,
   528734635, 1541459225⟩

/-- One SHA-256 round: `kw` is the round constant paired with the schedule word. -/
def sha256Round (st : Hash8) (kw : Nat × Nat) : Hash8 :=
  let t1 := w32 (st.h + bigS1 st.e + ch st.e st.f st.g + kw.1 + kw.2)
  let t2 := w32 (bigS0 st.a + maj st.a st.b st.c)
  ⟨w32 (t1 + t2), st.a, st.b, st.c, w32 (st.d + t1), st.e, st.f, st.g⟩

/-- Group a byte list into 32-bit big-endian words. -/
def toWords : List Nat → List Nat
  | a :: b :: c :: d :: rest => (((a * 256 + b) * 256 + c) * 256 + d) :: toWords rest
  | _ => []

/-- Extend the 16 block words by `fuel` schedule words. -/
def extendSched (ws : List Nat) : Nat → List Nat
  | 0 => ws
  | fuel + 1 =>
    let n := ws.length
    let next := w32 (smallS1 (ws.getD (n - 2) 0) + ws.getD (n - 7) 0 +
      smallS0 (ws.getD (n - 15) 0) + ws.getD (n - 16) 0)
    extendSched (ws ++ [next]) fuel

/-- Process one 64-byte block. -/
def compress (hv : Hash8) (block : List Nat) : Hash8 :=
  let ws := extendSched (toWords block) 48
  let st := (K.zip ws).foldl sha256Round hv
  ⟨w32 (hv.a + st.a), w32 (hv.b + st.b), w32 (hv.c + st.c), w32 (hv.d + st.d),
   w32 (hv.e + st.e), w32 (hv.f + st.f), w32 (hv.g + st.g), w32 (hv.h + st.h)⟩

/-- Big-endian 8-byte encoding of a length in bits. -/
def be8 (n : Nat) : List Nat :=
  [n / 72057594037927936 % 256, n / 281474976710656 % 256,
   n / 1099511627776 % 256, n / 4294967296 % 256,
   n / 16777216 % 256, n / 65536 % 256, n / 256 % 256, n % 256]

/-- SHA-256 message padding: a 1-bit, zeros to 56 mod 64, then the bit length. -/
def shaPad (msg : List Nat) : List Nat :=
  let l := msg.length
  msg ++ [128] ++ List.replicate ((119 - l % 64) % 64) 0 ++ be8 (8 * l)

/-- Split into 64-byte blocks, with fuel for structural recursion. -/
def toBlocksFuel : Nat → List Nat → List (List Nat)
  | 0, _ => []
  | _, [] => []
  | fuel + 1, l => l.take 64 :: toBlocksFuel fuel (l.drop 64)

/-- Split a (padded) byte list into 64-byte blocks; the list's length is always
enough fuel since every step consumes at least one element. -/
def toBlocks (l : List Nat) : List (List Nat) := toBlocksFuel l.length l

/-- Big-endian 4-byte encoding of a 32-bit word. -/
def be4 (n : Nat) : List Nat :=
  [n / 16777216 % 256, n / 65536 % 256, n / 256 % 256, n % 256]

/-- SHA-256 of a byte list, as a 32-byte list. -/
def sha256 (msg : List Nat) : List Nat :=
  let hv := (toBlocks (shaPad msg)).foldl compress initH
  be4 hv.a ++ be4 hv.b ++ be4 hv.c ++ be4 hv.d ++ be4 hv.e ++ be4 hv.f ++
    be4 hv.g ++ be4 hv.h

/-! ## HMAC (RFC 2104) and standard base64 -/

/-- HMAC-SHA256 with block size 64, as `crypto/hmac` computes it. -/
def hmacSha256 (key msg : List Nat) : List Nat :=
  let k0 := if 64 < key.length then sha256 key else key
  let kp := k0 ++ List.replicate (64 - k0.length) 0
  sha256 (kp.map (Nat.xor 92) ++ sha256 (kp.map (Nat.xor 54) ++ msg))

/-- The standard base64 alphabet. -/
def b64Alphabet : List Char :=
  "ABCDEFGHIJKLMNOPQRSTUVWXYZabcdefghijklmnopqrstuvwxyz0123456789+/".data

/-- Character for a 6-bit group. -/
def b64c (n : Nat) : Char := b64Alphabet.getD n 'A'

/-- Standard base64 encoding with padding, as `base64.StdEncoding` computes it. -/
def base64Encode : List Nat → String
  | [] => ""
  | [a] =>
    let n := a * 65536
    String.mk [b64c (n / 262144), b64c (n / 4096 % 64)] ++ "=="
  | [a, b] =>
    let n := a * 65536 + b * 256
    String.mk [b64c (n / 262144), b64c (n / 4096 % 64), b64c (n / 64 % 64)] ++ "="
  | a :: b :: c :: rest =>
    let n := a * 65536 + b * 256 + c
    String.mk [b64c (n / 262144), b64c (n / 4096 % 64), b64c (n / 64 % 64),
      b64c (n % 64)] ++ base64Encode rest

/-- Bytes of a string; the Go code converts strings with a byte cast, which for
the ASCII tokens and secrets in play is the code-point sequence. -/
def strBytes (s : String) : List Nat := s.data.map Char.toNat

/-! ## The fixed webhook base URL and query construction -/

/-- The fixed DingTalk webhook base URL (`apiUrl` in the source). -/
def apiUrl : String := "https://oapi.dingtalk.com/robot/send?access_token="

/-- Embedding of `Robot.buildQuery`: the wall clock read `time.Now().UnixMilli()`
becomes the explicit `timestamp` argument; everything after it is pure. -/
def buildQuery (accessToken secret : String) (timestamp : Nat) : String :=
  let signature := toString timestamp ++ "\n" ++ secret
  let sign := base64Encode (hmacSha256 (strBytes secret) (strBytes signature))
  let webhook := apiUrl ++ accessToken
  webhook ++ "&timestamp=" ++ toString timestamp ++ "&sign=" ++ sign

/-! ## Data model: messages, mention state, robot state -/

/-- Values stored in the mention mapping produced by `AtPeople.serialize`:
string slices and the boolean flag. -/
inductive AtValue where
  | strs (xs : List String)
  | flag (b : Bool)
deriving DecidableEq, Repr

/-- JSON-serializable values the program actually stores in its
`map[string]interface\x7b\x7d` message: plain strings, string-to-string maps
(the text and markdown payloads), and the serialized mention object. -/
inductive JValue where
  | str (s : String)
  | strMap (m : List (String × String))
  | atObj (m : List (String × AtValue))
deriving DecidableEq, Repr

/-- The `Message` map, represented as an association list keyed by insertion
order (Go map iteration order is not observable to the claims). -/
def Message := List (String × JValue)
deriving DecidableEq, Repr

/-- Map update `m[k] = v`: drop any existing entry for `k`, append the new one. -/
def Message.insert (m : Message) (k : String) (v : JValue) : Message :=
  m.filter (fun kv => kv.1 ≠ k) ++ [(k, v)]

/-- Lookup in a message map. -/
def Message.lookup (m : Message) (k : String) : Option JValue :=
  List.lookup k m

/-- Mention-targeting state (`AtPeople` in the source). -/
structure AtPeople where
  atMobiles : List String
  atUserIds : List String
  isAtAll : Bool
deriving DecidableEq, Repr

/-- The zero value `new(AtPeople)` produces: empty slices, false flag. -/
def AtPeople.new : AtPeople := ⟨[], [], false⟩

/-- Embedding of `AtPeople.serialize`: a mapping holding only the non-empty
slices and the flag when true, in the source's insertion order. -/
def AtPeople.serialize (a : AtPeople) : List (String × AtValue) :=
  (if a.atMobiles.length > 0 then [("atMobiles", AtValue.strs a.atMobiles)] else []) ++
  (if a.atUserIds.length > 0 then [("atUserIds", AtValue.strs a.atUserIds)] else []) ++
  (if a.isAtAll then [("isAtAll", AtValue.flag a.isAtAll)] else [])

/-- The mutable state of a `Robot`: configuration plus the per-call scratch
message and mention state (`data` and `at` in the source; the log sink is an
external collaborator with no bearing on the claims). -/
structure Robot where
  AccessToken : String
  Secret : String
  data : Message
  atState : AtPeople
deriving DecidableEq, Repr

/-- Embedding of `NewRobot`: empty message map and zero-valued mention state
(the log-sink initialization is an external effect). -/
def NewRobot (accessToken secret : String) : Robot :=
  ⟨accessToken, secret, [], AtPeople.new⟩

/-- A message builder `SendMsgType` is `func(*Robot)`: a state transformer. -/
def SendMsgType := Robot → Robot

/-- Embedding of `TextType`: writes the discriminator and the content map. -/
def TextType (content : String) : SendMsgType :=
  fun r =>
    let d1 := r.data.insert "msgtype" (JValue.str "text")
    let d2 := d1.insert "text" (JValue.strMap [("content", content)])
    { r with data := d2 }

/-- Embedding of `MarkDownType`: writes the discriminator and the title/text map. -/
def MarkDownType (title text : String) : SendMsgType :=
  fun r =>
    let d1 := r.data.insert "msgtype" (JValue.str "markdown")
    let d2 := d1.insert "markdown" (JValue.strMap [("title", title), ("text", text)])
    { r with data := d2 }

/-- Mention options as first-class data, so option lists can be reasoned about;
the three constructors are the three `AtOption` constructors of the source. -/
inductive AtOption where
  | WithAtMobiles (mobiles : List String)
  | WithAtUserIds (userIds : List String)
  | WithAtAll
deriving DecidableEq, Repr

/-- Apply one option to the mention state, exactly as the Go closures do:
each one overwrites its whole field. -/
def AtOption.apply : AtOption → AtPeople → AtPeople
  | .WithAtMobiles ms, p => { p with atMobiles := ms }
  | .WithAtUserIds us, p => { p with atUserIds := us }
  | .WithAtAll, p => { p with isAtAll := true }

/-- Apply a list of options left to right (the loop in `BuildMsgAndSend`). -/
def applyOpts (p : AtPeople) (opts : List AtOption) : AtPeople :=
  opts.foldl (fun acc o => o.apply acc) p

/-! ## The send operation and its environment -/

/-- The DingTalk `Response` shape. -/
structure Response where
  ErrCode : Int
  ErrMsg : String
deriving DecidableEq, Repr

/-- Embedding of `Response.Error`: the formatted error text. -/
def Response.Error (r : Response) : String :=
  "dding talk response info: errcode=" ++ toString r.ErrCode ++ ",errmsg=" ++ r.ErrMsg

/-- Outcome of the HTTP POST and the subsequent body read and parse:
a transport error, a body-read error, or a body whose parse as `Response`
either fails (`none`, leaving the zero value) or yields a `Response`. -/
inductive PostOutcome where
  | transportErr
  | readErr
  | body (parsed : Option Response)
deriving DecidableEq, Repr

/-- The environment of one send: whether `sonic.Marshal` fails, and what the
HTTP round trip produces. -/
structure World where
  marshalErr : Bool
  post : PostOutcome
deriving DecidableEq, Repr

/-- What `send` returns to its caller. -/
inductive SendResult where
  | marshalError
  | transportError
  | readError
  | apiError (resp : Response)
  | success
deriving DecidableEq, Repr

/-- Observable ordering events of one send, in program order. -/
inductive Event where
  | postCall
  | resetState
  | readBody
deriving DecidableEq, Repr

/-- The full outcome of one send: the robot state left behind, the returned
value, and the ordered event trace. -/
structure SendOutput where
  state : Robot
  result : SendResult
  events : List Event
deriving DecidableEq, Repr

/-- Embedding of `Robot.send`, in source order: merge the serialized mention
state into the message under key `at` (the map is passed by reference, so this
mutates the pending message itself); marshal, returning early on failure with
nothing cleared; POST; immediately after the POST returns — before the body is
read, and whether or not the POST failed — clear the message and replace the
mention state with a zero value; then handle the transport error, read the
body, parse it (a parse failure leaves the zero-valued `Response`), and return
the `Response` as an error exactly when its code is nonzero. -/
def Robot.send (r : Robot) (w : World) : SendOutput :=
  let merged := r.data.insert "at" (JValue.atObj r.atState.serialize)
  if w.marshalErr then
    ⟨{ r with data := merged }, .marshalError, []⟩
  else
    let cleared : Robot := { r with data := [], atState := AtPeople.new }
    match w.post with
    | .transportErr => ⟨cleared, .transportError, [.postCall, .resetState]⟩
    | .readErr => ⟨cleared, .readError, [.postCall, .resetState, .readBody]⟩
    | .body parsed =>
      let result := parsed.getD ⟨0, ""⟩
      if result.ErrCode ≠ 0 then
        ⟨cleared, .apiError result, [.postCall, .resetState, .readBody]⟩
      else
        ⟨cleared, .success, [.postCall, .resetState, .readBody]⟩

/-- Embedding of `Robot.BuildMsgAndSend`: run the builder, apply the options
in order, then send. -/
def Robot.BuildMsgAndSend (r : Robot) (smt : SendMsgType) (opts : List AtOption)
    (w : World) : SendOutput :=
  let r1 := smt r
  Robot.send { r1 with atState := applyOpts r1.atState opts } w

end Notify
namespace Notify

theorem lookup_insert_self (m : Message) (k : String) (v : JValue) :
    Message.lookup (m.insert k v) k = some v := by
  unfold Message.insert Message.lookup
  induction m with
  | nil => simp [List.lookup]
  | cons hd tl ih =>
    obtain ⟨k1, v1⟩ := hd
    by_cases h : k1 = k
    · simpa [List.filter_cons, h] using ih
    · have hb : (k == k1) = false := beq_eq_false_iff_ne.mpr (Ne.symm h)
      simp [List.filter_cons, h, List.lookup, hb]
      simpa using ih

theorem serialize_lookup_atMobiles (a : AtPeople) :
    List.lookup "atMobiles" a.serialize =
      if a.atMobiles = [] then none else some (AtValue.strs a.atMobiles) := by
  rcases a with ⟨ms, us, b⟩
  cases ms <;> cases us <;> cases b <;>
    simp [AtPeople.serialize, List.lookup]

theorem serialize_lookup_atUserIds (a : AtPeople) :
    List.lookup "atUserIds" a.serialize =
      if a.atUserIds = [] then none else some (AtValue.strs a.atUserIds) := by
  rcases a with ⟨ms, us, b⟩
  cases ms <;> cases us <;> cases b <;>
    simp [AtPeople.serialize, List.lookup]

theorem serialize_lookup_isAtAll (a : AtPeople) :
    List.lookup "isAtAll" a.serialize =
      if a.isAtAll then some (AtValue.flag true) else none := by
  rcases a with ⟨ms, us, b⟩
  cases ms <;> cases us <;> cases b <;>
    simp [AtPeople.serialize, List.lookup]

end Notify
namespace Notify

set_option maxRecDepth 100000 in
/-- Claim C1: for every access token, secret and timestamp, the signed URL is
the fixed webhook base URL, then the token, then the timestamp and the
standard-base64 HMAC-SHA256 of the message built from the timestamp, a
newline and the secret, keyed by the secret's bytes; the signature is
concatenated literally, with no percent-encoding, as the concrete instance —
whose signature contains a plus, a slash and a padding equals sign — shows;
and the result is a pure function of token, secret and timestamp. -/
theorem buildQuery_signs_correctly (accessToken secret : String) (timestamp : Nat) :
    buildQuery accessToken secret timestamp =
      apiUrl ++ accessToken ++ "&timestamp=" ++ toString timestamp ++ "&sign=" ++
        base64Encode (hmacSha256 (strBytes secret)
          (strBytes (toString timestamp ++ "\n" ++ secret))) ∧
    buildQuery "tok" "s" 6 =
      "https://oapi.dingtalk.com/robot/send?access_token=tok&timestamp=6&sign=R1gkaWY9z7NLhlxbSFCQ8Oc+/obXRwi8tp+kYQQLUSg=" := by
  constructor
  · simp [buildQuery, String.append_assoc]
  · rfl

/-- Claim C4: an unparseable response body is silently ignored: the zero-valued
`Response` stands, the call is treated exactly like a success response with
code zero, and no error is returned. -/
theorem malformed_body_is_success (r : Robot) :
    (Robot.send r ⟨false, PostOutcome.body none⟩).result = SendResult.success ∧
    Robot.send r ⟨false, PostOutcome.body none⟩ =
      Robot.send r ⟨false, PostOutcome.body (some ⟨0, ""⟩)⟩ :=
  ⟨rfl, rfl⟩

/-- Claim C8: on an empty pending message, the text builder produces exactly
the msgtype discriminator and the content object, and the markdown builder
exactly the discriminator and the title/text object. -/
theorem builders_produce_exact_payload (r : Robot) (content title text : String)
    (hempty : r.data = []) :
    (TextType content r).data =
      [("msgtype", JValue.str "text"),
       ("text", JValue.strMap [("content", content)])] ∧
    (MarkDownType title text r).data =
      [("msgtype", JValue.str "markdown"),
       ("markdown", JValue.strMap [("title", title), ("text", text)])] := by
  constructor
  · simp [TextType, Message.insert, hempty, List.filter]
  · simp [MarkDownType, Message.insert, hempty, List.filter]

theorem builders_produce_exact_payload_witness :
    ((NewRobot "t" "s").data = []) ∧
    (TextType "hello" (NewRobot "t" "s")).data =
      [("msgtype", JValue.str "text"),
       ("text", JValue.strMap [("content", "hello")])] ∧
    (MarkDownType "T" "B" (NewRobot "t" "s")).data =
      [("msgtype", JValue.str "markdown"),
       ("markdown", JValue.strMap [("title", "T"), ("text", "B")])] :=
  ⟨rfl, (builders_produce_exact_payload (NewRobot "t" "s") "hello" "T" "B" rfl).1,
    (builders_produce_exact_payload (NewRobot "t" "s") "hello" "T" "B" rfl).2⟩

end Notify
namespace Notify

/-- Claim C7: mention serialization is a pure function of the mention state
producing only populated fields: the neutral state gives the empty mapping,
mention-all alone gives exactly the flag entry, mobiles alone gives exactly
the mobiles entry, each key is present exactly when its field is non-empty or
true, and with all three fields set all three keys are present, none omitted. -/
theorem serialize_only_populated_fields :
    (AtPeople.serialize ⟨[], [], false⟩ = []) ∧
    (AtPeople.serialize ⟨[], [], true⟩ = [("isAtAll", AtValue.flag true)]) ∧
    (AtPeople.serialize ⟨["111", "222"], [], false⟩ =
      [("atMobiles", AtValue.strs ["111", "222"])]) ∧
    (∀ a : AtPeople,
      List.lookup "atMobiles" a.serialize =
        (if a.atMobiles = [] then none else some (AtValue.strs a.atMobiles)) ∧
      List.lookup "atUserIds" a.serialize =
        (if a.atUserIds = [] then none else some (AtValue.strs a.atUserIds)) ∧
      List.lookup "isAtAll" a.serialize =
        (if a.isAtAll then some (AtValue.flag true) else none)) ∧
    (∀ ms us : List String, ms ≠ [] → us ≠ [] →
      AtPeople.serialize ⟨ms, us, true⟩ =
        [("atMobiles", AtValue.strs ms), ("atUserIds", AtValue.strs us),
         ("isAtAll", AtValue.flag true)]) := by
  refine ⟨rfl, rfl, rfl,
    fun a => ⟨serialize_lookup_atMobiles a, serialize_lookup_atUserIds a,
      serialize_lookup_isAtAll a⟩, ?_⟩
  intro ms us h1 h2
  simp [AtPeople.serialize, List.length_pos.mpr h1, List.length_pos.mpr h2]

theorem serialize_only_populated_fields_witness :
    AtPeople.serialize ⟨["111"], ["u1"], true⟩ =
      [("atMobiles", AtValue.strs ["111"]), ("atUserIds", AtValue.strs ["u1"]),
       ("isAtAll", AtValue.flag true)] :=
  serialize_only_populated_fields.2.2.2.2 ["111"] ["u1"] (by decide) (by decide)

/-- Claim C10: a zero-argument mobiles or user-ids option resets its field to
the empty sequence, so the key is absent from the serialized mention mapping —
even when an earlier option in the same call had set the field. -/
theorem zero_arg_option_erases_field (p : AtPeople) (pre : List AtOption) :
    ((applyOpts p (pre ++ [AtOption.WithAtMobiles []])).atMobiles = [] ∧
      List.lookup "atMobiles"
        (applyOpts p (pre ++ [AtOption.WithAtMobiles []])).serialize = none) ∧
    ((applyOpts p (pre ++ [AtOption.WithAtUserIds []])).atUserIds = [] ∧
      List.lookup "atUserIds"
        (applyOpts p (pre ++ [AtOption.WithAtUserIds []])).serialize = none) := by
  have h1 : applyOpts p (pre ++ [AtOption.WithAtMobiles []]) =
      { applyOpts p pre with atMobiles := [] } := by
    simp [applyOpts, List.foldl_append, AtOption.apply]
  have h2 : applyOpts p (pre ++ [AtOption.WithAtUserIds []]) =
      { applyOpts p pre with atUserIds := [] } := by
    simp [applyOpts, List.foldl_append, AtOption.apply]
  refine ⟨⟨by rw [h1], ?_⟩, by rw [h2], ?_⟩
  · rw [h1, serialize_lookup_atMobiles]
    simp
  · rw [h2, serialize_lookup_atUserIds]
    simp

/-- Claim C6: in `BuildMsgAndSend` the builder runs exactly once and first,
the mention options are folded left to right over the caller-supplied list,
and an option appended for a field overwrites that field with its own value
while leaving the other fields exactly as the earlier options left them. -/
theorem builder_then_options_last_write_wins (r : Robot) (smt : SendMsgType)
    (opts : List AtOption) (w : World) :
    (Robot.BuildMsgAndSend r smt opts w =
      Robot.send { smt r with atState := applyOpts (smt r).atState opts } w) ∧
    (∀ (o : AtOption) (rest : List AtOption) (p : AtPeople),
      applyOpts p (o :: rest) = applyOpts (o.apply p) rest) ∧
    (∀ (p : AtPeople) (pre : List AtOption) (ms : List String),
      applyOpts p (pre ++ [AtOption.WithAtMobiles ms]) =
        { applyOpts p pre with atMobiles := ms }) ∧
    (∀ (p : AtPeople) (pre : List AtOption) (us : List String),
      applyOpts p (pre ++ [AtOption.WithAtUserIds us]) =
        { applyOpts p pre with atUserIds := us }) ∧
    (∀ (p : AtPeople) (pre : List AtOption),
      applyOpts p (pre ++ [AtOption.WithAtAll]) =
        { applyOpts p pre with isAtAll := true }) := by
  refine ⟨rfl, fun o rest p => rfl, ?_, ?_, ?_⟩ <;>
    intros <;> simp [applyOpts, List.foldl_append, AtOption.apply]

end Notify
namespace Notify

/-- Claim C2: whenever marshalling succeeds — so the HTTP POST call returns,
successfully or not — the pending message is emptied and the mention state
replaced by a zero value; in the event trace the reset follows the POST
immediately and precedes any body read; and a later `BuildMsgAndSend` on the
resulting robot behaves exactly as on a robot with empty scratch state. -/
theorem reset_follows_post (r : Robot) (w : World) (h : w.marshalErr = false) :
    (Robot.send r w).state = { r with data := [], atState := AtPeople.new } ∧
    (∃ t, (Robot.send r w).events = Event.postCall :: Event.resetState :: t) ∧
    (∀ (smt : SendMsgType) (opts : List AtOption) (w2 : World),
      Robot.BuildMsgAndSend (Robot.send r w).state smt opts w2 =
        Robot.BuildMsgAndSend { r with data := [], atState := AtPeople.new }
          smt opts w2) := by
  rcases w with ⟨me, post⟩
  subst h
  cases post with
  | transportErr => exact ⟨rfl, ⟨[], rfl⟩, fun _ _ _ => rfl⟩
  | readErr => exact ⟨rfl, ⟨[Event.readBody], rfl⟩, fun _ _ _ => rfl⟩
  | body parsed =>
    by_cases hc : (parsed.getD ⟨0, ""⟩).ErrCode = 0
    · have he : Robot.send r ⟨false, PostOutcome.body parsed⟩ =
          ⟨{ r with data := [], atState := AtPeople.new }, SendResult.success,
            [Event.postCall, Event.resetState, Event.readBody]⟩ := by
        simp [Robot.send, hc]
      exact ⟨by rw [he], ⟨[Event.readBody], by rw [he]⟩, fun _ _ _ => by rw [he]⟩
    · have he : Robot.send r ⟨false, PostOutcome.body parsed⟩ =
          ⟨{ r with data := [], atState := AtPeople.new },
            SendResult.apiError (parsed.getD ⟨0, ""⟩),
            [Event.postCall, Event.resetState, Event.readBody]⟩ := by
        simp [Robot.send, hc]
      exact ⟨by rw [he], ⟨[Event.readBody], by rw [he]⟩, fun _ _ _ => by rw [he]⟩

theorem reset_follows_post_witness :
    (Robot.send ⟨"t", "s", [("msgtype", JValue.str "text")], ⟨["111"], [], true⟩⟩
        ⟨false, PostOutcome.transportErr⟩).state =
      ⟨"t", "s", [], AtPeople.new⟩ :=
  (reset_follows_post _ ⟨false, PostOutcome.transportErr⟩ rfl).1

/-- Claim C3: when JSON marshalling of the merged message fails, the send
returns the marshalling error at once — the trace is empty, so no POST and no
reset happened — and the pending mention state is untouched while the pending
message still holds the merged (hence non-empty) map rather than being
cleared. -/
theorem marshal_failure_returns_uncleared (r : Robot) (w : World)
    (h : w.marshalErr = true) :
    (Robot.send r w).result = SendResult.marshalError ∧
    (Robot.send r w).state.atState = r.atState ∧
    (Robot.send r w).state.data =
      r.data.insert "at" (JValue.atObj r.atState.serialize) ∧
    (Robot.send r w).state.data ≠ [] ∧
    (Robot.send r w).events = [] := by
  rcases w with ⟨me, post⟩
  subst h
  refine ⟨rfl, rfl, rfl, ?_, rfl⟩
  intro hx
  obtain ⟨-, h2⟩ := List.append_eq_nil.mp hx
  exact List.cons_ne_nil _ _ h2

theorem marshal_failure_returns_uncleared_witness :
    (Robot.send ⟨"t", "s", [], ⟨["111"], [], true⟩⟩
        ⟨true, PostOutcome.transportErr⟩).result = SendResult.marshalError ∧
    (Robot.send ⟨"t", "s", [], ⟨["111"], [], true⟩⟩
        ⟨true, PostOutcome.transportErr⟩).state.atState = ⟨["111"], [], true⟩ :=
  ⟨(marshal_failure_returns_uncleared _ _ rfl).1,
    (marshal_failure_returns_uncleared _ _ rfl).2.1⟩

/-- Claim C5: after a successful POST and body read, the send succeeds exactly
when the parsed error code is zero, and a nonzero code is returned as the
structured `Response` error, whose formatted text contains both the decimal
code and the error message. -/
theorem nonzero_code_is_structured_error (r : Robot) (resp : Response) :
    (resp.ErrCode = 0 →
      (Robot.send r ⟨false, PostOutcome.body (some resp)⟩).result =
        SendResult.success) ∧
    (resp.ErrCode ≠ 0 →
      (Robot.send r ⟨false, PostOutcome.body (some resp)⟩).result =
        SendResult.apiError resp ∧
      (toString resp.ErrCode).data <:+: (Response.Error resp).data ∧
      resp.ErrMsg.data <:+: (Response.Error resp).data) := by
  constructor
  · intro h
    simp [Robot.send, h]
  · intro h
    refine ⟨by simp [Robot.send, h], ?_, ?_⟩
    · exact ⟨"dding talk response info: errcode=".data,
        (",errmsg=" ++ resp.ErrMsg).data,
        by simp [Response.Error, String.data_append, List.append_assoc]⟩
    · exact ⟨("dding talk response info: errcode=" ++ toString resp.ErrCode ++
          ",errmsg=").data, [],
        by simp [Response.Error, String.data_append, List.append_assoc]⟩

theorem nonzero_code_is_structured_error_witness :
    (Robot.send (NewRobot "t" "s")
        ⟨false, PostOutcome.body (some ⟨0, ""⟩)⟩).result = SendResult.success ∧
    (Robot.send (NewRobot "t" "s")
        ⟨false, PostOutcome.body (some ⟨300001, "token is not exist"⟩)⟩).result =
      SendResult.apiError ⟨300001, "token is not exist"⟩ ∧
    (toString (300001 : Int)).data <:+:
      (Response.Error ⟨300001, "token is not exist"⟩).data :=
  ⟨(nonzero_code_is_structured_error (NewRobot "t" "s") ⟨0, ""⟩).1 rfl,
    ((nonzero_code_is_structured_error (NewRobot "t" "s")
      ⟨300001, "token is not exist"⟩).2 (by decide)).1,
    ((nonzero_code_is_structured_error (NewRobot "t" "s")
      ⟨300001, "token is not exist"⟩).2 (by decide)).2.1⟩

/-- Claim C9: on the marshalling-failure path the uncleared pending message is
not just what the builder wrote: the call's mention state has already been
merged into it under the key `at`, and both that entry and the mention state
itself survive into any subsequent call on the same robot. -/
theorem marshal_failure_keeps_merged_mentions (r : Robot) (smt : SendMsgType)
    (opts : List AtOption) (w : World) (h : w.marshalErr = true) :
    Message.lookup (Robot.BuildMsgAndSend r smt opts w).state.data "at" =
      some (JValue.atObj (applyOpts (smt r).atState opts).serialize) ∧
    (Robot.BuildMsgAndSend r smt opts w).state.atState =
      applyOpts (smt r).atState opts := by
  rcases w with ⟨me, post⟩
  subst h
  exact ⟨lookup_insert_self ((smt r).data) "at"
    (JValue.atObj (applyOpts (smt r).atState opts).serialize), rfl⟩

theorem marshal_failure_keeps_merged_mentions_witness :
    Message.lookup (Robot.BuildMsgAndSend (NewRobot "t" "s") (TextType "hi")
        [AtOption.WithAtAll] ⟨true, PostOutcome.transportErr⟩).state.data "at" =
      some (JValue.atObj [("isAtAll", AtValue.flag true)]) :=
  (marshal_failure_keeps_merged_mentions (NewRobot "t" "s") (TextType "hi")
    [AtOption.WithAtAll] ⟨true, PostOutcome.transportErr⟩ rfl).1

end Notify
